import Mathlib

/-!
Verification of the Ledger & Recurrence Engine of `main.py` (a Telegram
budget bot).  The relevant database-backed operations are shallowly
embedded: each SQLite table becomes a list of records inside a `DB`
state, each handler becomes a pure function from a state (plus the
already-parsed user inputs that the Telegram layer would supply) to a
result and a new state.  Monetary values are modelled as rationals;
Python's `round(x, 2)` is modelled as round-half-to-even at two decimal
places.  Python exceptions that escape a handler are modelled with
`Except`/explicit error results, and the fact that `sqlite3` commits or
rolls back at `with`-block boundaries is reflected in which writes
survive on each path.
-/

namespace Budget

/-- Round-half-to-even to an integer, mirroring Python's `round`
(banker's rounding) on our rational idealization of floats. -/
def roundHalfEven (x : ℚ) : ℤ :=
  let n : ℤ := Int.floor x
  let f : ℚ := x - n
  if f < 1/2 then n
  else if 1/2 < f then n + 1
  else if n % 2 = 0 then n else n + 1

/-- Python's `round(x, 2)`. -/
def round2 (x : ℚ) : ℚ :=
  (roundHalfEven (100 * x) : ℚ) / 100

/-- The currency table `CURRENCIES` of `main.py` (its key set). -/
def CURRENCIES : List String :=
  [("USD"), ("EUR"), ("CHF"), ("GBP"), ("JPY"), ("RUB")]

def cUSD : String := "USD"
def tIncome : String := "income"
def tOutcome : String := "outcome"
def tTransfer : String := "transfer"

/-- Outcome of the rate retrieval in `convert_currency`: `none` models a
request failure / malformed payload (anything raising before the `rates`
dict is available); `some table` is the parsed `rates` mapping.  A code
missing from the table models `KeyError`/`TypeError` on `rates[code]`. -/
abbrev RatesFetch : Type := Option (List (String × ℚ))

/-- `convert_currency(amount, from_curr, to_curr)` of `main.py`
(lines 220-239).  The `try` block computes `amount / rates[from]` and
then `amount * rates[to]` (each skipped for `USD`), rounding the final
result to two decimals; any exception along the way falls into the
`except` clause, which returns the current value of the local variable
`amount` — which has already been divided by `rates[from]` if the
failure happened at the `rates[to]` step. -/
def convert_currency (fetch : RatesFetch) (amount : ℚ)
    (from_curr to_curr : String) : ℚ :=
  if from_curr = to_curr then amount
  else
    match fetch with
    | none => amount
    | some rates =>
      if from_curr ≠ cUSD then
        match rates.lookup from_curr with
        | none => amount
        | some rf =>
          if rf = 0 then amount
          else
            let a1 := amount / rf
            if to_curr ≠ cUSD then
              match rates.lookup to_curr with
              | none => a1
              | some rt => round2 (a1 * rt)
            else round2 a1
      else
        if to_curr ≠ cUSD then
          match rates.lookup to_curr with
          | none => amount
          | some rt => round2 (amount * rt)
        else round2 amount

/-- A row of the `wallets` table. -/
structure Wallet where
  id : Nat
  user_id : Nat
  name : String
  currency : String
  balance : ℚ
  is_default : Bool
deriving DecidableEq, Repr

/-- A row of the `transactions` table. -/
structure Txn where
  id : Nat
  user_id : Nat
  ttype : String
  amount : ℚ
  description : String
  date : String
  currency : String
  category_id : Option Nat
  wallet_id : Option Nat
deriving DecidableEq, Repr

/-- A row of the `holds` table. -/
structure Hold where
  id : Nat
  user_id : Nat
  amount : ℚ
  description : String
  currency : String
  wallet_id : Option Nat
  tags : String
deriving DecidableEq, Repr

/-- A row of the `recurring` table. -/
structure Recurring where
  id : Nat
  user_id : Nat
  rtype : String
  amount : ℚ
  description : String
  currency : String
  day_of_month : Nat
  is_active : Bool
deriving DecidableEq, Repr

/-- The mutable database state: the tables touched by the ledger
operations, plus the next `INTEGER PRIMARY KEY` value per table
(SQLite rowids are allocated increasingly). -/
structure DB where
  wallets : List Wallet
  transactions : List Txn
  holds : List Hold
  recurring : List Recurring
  categories : List (Nat × String)
  next_wallet_id : Nat
  next_txn_id : Nat
  next_hold_id : Nat
  next_cat_id : Nat
deriving DecidableEq, Repr

/-- `UPDATE wallets SET balance = balance + d WHERE id = wid`. -/
def updBal (l : List Wallet) (wid : Nat) (d : ℚ) : List Wallet :=
  l.map (fun w => if w.id = wid then { w with balance := w.balance + d } else w)

/-- Python truthiness on an optional integer (`if not wallet_id:`
treats both `None` and `0` as absent). -/
def truthyId (o : Option Nat) : Option Nat :=
  match o with
  | none => none
  | some w => if w = 0 then none else some w

/-- `get_wallet_name(wallet_id)` of `main.py` (lines 203-208). -/
def get_wallet_name (s : DB) (wid : Nat) : String :=
  match s.wallets.find? (fun w => w.id = wid) with
  | some w => w.name
  | none => "Unknown Wallet"

/-- `get_default_wallet(user_id)` of `main.py` (lines 210-218): the id of
the first wallet of the user with `is_default = 1`. -/
def get_default_wallet (s : DB) (uid : Nat) : Option Nat :=
  (s.wallets.find? (fun w => w.user_id = uid && w.is_default)).map (fun w => w.id)

/-- Substring test on `List Char` (`needle in hay` in Python). -/
def containsAux : List Char → List Char → Bool
  | [], n => n.isEmpty
  | c :: t, n => List.isPrefixOf n (c :: t) || containsAux t n

/-- ASCII lower-casing of one character — `str.lower()` as far as the
keyword table of `CATEGORIES` (pure ASCII) is concerned. -/
def lowerChar (c : Char) : Char :=
  if 65 ≤ c.toNat && c.toNat ≤ 90 then Char.ofNat (c.toNat + 32) else c

/-- `needle in hay.lower()` for strings. -/
def strContains (hay needle : String) : Bool :=
  containsAux (hay.toList.map lowerChar) needle.toList

/-- The `CATEGORIES` keyword table of `main.py` (lines 129-137). -/
def CATEGORIES_KW : List (String × List String) :=
  [(("Food"), [("mcdonalds"), ("burger"), ("restaurant"), ("cafe"), ("groceries"), ("food"), ("eat")]),
   (("Transport"), [("taxi"), ("uber"), ("metro"), ("transport"), ("gas"), ("fuel"), ("parking")]),
   (("Housing"), [("rent"), ("mortgage"), ("utilities"), ("electricity"), ("water"), ("internet"), ("room")]),
   (("Entertainment"), [("movie"), ("netflix"), ("concert"), ("game"), ("hobby")]),
   (("Healthcare"), [("pharmacy"), ("doctor"), ("hospital"), ("medicine"), ("insurance")]),
   (("Income"), [("salary"), ("bonus"), ("freelance"), ("payment"), ("invoice")]),
   (("Other"), [])]

/-- `detect_category(description)` of `main.py` (lines 31-40): first
category whose keyword list has a hit in the lower-cased description,
`Other` otherwise. -/
def detect_category (description : String) : String :=
  if description = "" then "Other"
  else
    match CATEGORIES_KW.find?
        (fun p => p.2.any (fun kw => strContains description kw)) with
    | some p => p.1
    | none => "Other"

/-- `SELECT id FROM categories WHERE name = ?`, inserting on miss, as in
`add_outcome` (lines 1686-1696). -/
def getOrCreateCat (s : DB) (name : String) : Nat × DB :=
  match s.categories.find? (fun p => p.2 = name) with
  | some p => (p.1, s)
  | none =>
    (s.next_cat_id,
     { s with categories := s.categories ++ [(s.next_cat_id, name)],
              next_cat_id := s.next_cat_id + 1 })

/-- Result of the income/outcome recording handlers. -/
inductive AddRes
  | noWallet
  | walletMissing
  | ok
deriving DecidableEq, Repr

/-- `add_income` of `main.py` (lines 1503-1567), database core.  The
already-parsed pieces of the message are passed in: `amount` is the
parsed number and `curGiven` is `text[1].upper()` when that token was a
known currency code.  When the given currency differs from the wallet's,
the amount is converted before insert and the stored currency becomes
the wallet's. -/
def add_income (fetch : RatesFetch) (date : String) (s : DB) (uid : Nat)
    (ctxWallet : Option Nat) (amount : ℚ) (curGiven : Option String)
    (description : String) : AddRes × DB :=
  match truthyId ctxWallet with
  | none => (.noWallet, s)
  | some wid =>
    match s.wallets.find? (fun w => w.id = wid) with
    | none => (.walletMissing, s)
    | some w =>
      let cur0 := match curGiven with | some c => c | none => w.currency
      let amt := if cur0 ≠ w.currency
                 then convert_currency fetch amount cur0 w.currency
                 else amount
      (.ok,
       { s with
         transactions := s.transactions ++
           [⟨s.next_txn_id, uid, tIncome, amt, description, date, w.currency,
             none, some wid⟩],
         next_txn_id := s.next_txn_id + 1,
         wallets := updBal s.wallets wid amt })

/-- `add_outcome` of `main.py` (lines 1646-1728), database core: the
transaction row stores `-amount` and the balance is decremented by
`amount`; the auto-detected category is resolved against the
`categories` table. -/
def add_outcome (fetch : RatesFetch) (date : String) (s : DB) (uid : Nat)
    (ctxWallet : Option Nat) (amount : ℚ) (curGiven : Option String)
    (description : String) : AddRes × DB :=
  match truthyId ctxWallet with
  | none => (.noWallet, s)
  | some wid =>
    match s.wallets.find? (fun w => w.id = wid) with
    | none => (.walletMissing, s)
    | some w =>
      let category := detect_category description
      let cur0 := match curGiven with | some c => c | none => w.currency
      let amt := if cur0 ≠ w.currency
                 then convert_currency fetch amount cur0 w.currency
                 else amount
      let cid_s := getOrCreateCat s category
      (.ok,
       { cid_s.2 with
         transactions := cid_s.2.transactions ++
           [⟨cid_s.2.next_txn_id, uid, tOutcome, -amt, description, date,
             w.currency, some cid_s.1, some wid⟩],
         next_txn_id := cid_s.2.next_txn_id + 1,
         wallets := updBal cid_s.2.wallets wid (-amt) })

/-- Result of `process_hold_from_wallet`. -/
inductive HoldRes
  | invalidAmount
  | noWallet
  | walletNotFound
  | insufficientFunds
  | ok
deriving DecidableEq, Repr

/-- `process_hold_from_wallet` of `main.py` (lines 324-392), database
core: validates `amount > 0`, looks the wallet up by id and owner,
checks `amount > wallet.balance`, then inserts the hold (currency and
source wallet taken from the wallet) and decrements the wallet balance
in one committed unit. -/
def process_hold_from_wallet (s : DB) (uid : Nat) (ctxWallet : Option Nat)
    (amount : ℚ) : HoldRes × DB :=
  if amount ≤ 0 then (.invalidAmount, s)
  else
    match truthyId ctxWallet with
    | none => (.noWallet, s)
    | some wid =>
      match s.wallets.find? (fun w => w.id = wid && w.user_id = uid) with
      | none => (.walletNotFound, s)
      | some w =>
        if w.balance < amount then (.insufficientFunds, s)
        else
          let d := "Hold from " ++ get_wallet_name s wid
          (.ok,
           { s with
             holds := s.holds ++
               [⟨s.next_hold_id, uid, amount, d, w.currency, some wid, ""⟩],
             next_hold_id := s.next_hold_id + 1,
             wallets := updBal s.wallets wid (-amount) })

/-- `add_hold` of `main.py` (lines 1835-1886), database core: each input
line is parsed as `amount [description]`; a parse failure (`none`) only
adds an error message, a parsed line is inserted as a hold with the
user's display currency, **without any positivity check**, and with no
source wallet. -/
def add_hold (s : DB) (uid : Nat) (currency : String)
    (lines : List (Option (ℚ × String))) : DB :=
  lines.foldl
    (fun st line =>
      match line with
      | none => st
      | some ad =>
        { st with
          holds := st.holds ++
            [⟨st.next_hold_id, uid, ad.1, ad.2, currency, none, ""⟩],
          next_hold_id := st.next_hold_id + 1 })
    s

/-- `remove_hold` of `main.py` (lines 2377-2387): deletes the hold row
and nothing else — in particular no wallet balance is updated and no
transaction is recorded. -/
def remove_hold (s : DB) (hold_id : Nat) : DB :=
  { s with holds := s.holds.filter (fun h => !(h.id = hold_id)) }

/-- Python exceptions escaping a handler. -/
inductive PyExc
  | attributeError
  | typeError
deriving DecidableEq, Repr

/-- `hold.get('wallet_id')` in `transfer_hold` (line 2348): `hold` is a
`sqlite3.Row` (the connection sets `row_factory = sqlite3.Row`), and
`sqlite3.Row` supports indexing and `keys()` but has no `get` attribute,
so this attribute access raises `AttributeError` unconditionally. -/
def rowGetWalletId (_h : Hold) : Except PyExc (Option Nat) :=
  .error .attributeError

/-- Result of `transfer_hold`. -/
inductive THRes
  | notFound
  | raised (e : PyExc)
  | processed
deriving DecidableEq, Repr

/-- `transfer_hold` of `main.py` (lines 2335-2375): resolves a hold to
an income or outcome transaction.  The exception raised by
`hold.get('wallet_id')` propagates out of the `with` block, which makes
`sqlite3` roll back; since nothing had been written before that point
the state is unchanged.  The remaining lines of the function (the
refund-on-outcome update, the transaction insert and the hold delete)
are kept here as the dead continuation. -/
def transfer_hold (fetchDate : String) (s : DB) (uid : Nat)
    (action : String) (hold_id : Nat) : THRes × DB :=
  match s.holds.find? (fun h => h.id = hold_id) with
  | none => (.notFound, s)
  | some h =>
    match rowGetWalletId h with
    | .error e => (.raised e, s)
    | .ok wallet_id =>
      let trans_type := if action = tIncome then tIncome else tOutcome
      let amount := if action = tIncome then h.amount else -h.amount
      let description :=
        (if action = tIncome then ("Released hold: ") else ("Spent hold: "))
          ++ h.description
      let s1 :=
        match wallet_id with
        | some wid =>
          if action = tOutcome
          then { s with wallets := updBal s.wallets wid h.amount }
          else s
        | none => s
      let s2 :=
        { s1 with
          transactions := s1.transactions ++
            [(⟨s1.next_txn_id, uid, trans_type, amount, description, fetchDate,
              h.currency, none, wallet_id⟩ : Txn)],
          next_txn_id := s1.next_txn_id + 1 }
      (.processed,
       { s2 with holds := s2.holds.filter (fun x => !(x.id = hold_id)) })

/-- Result of `delete_transaction`. -/
inductive DelRes
  | notFound
  | ok
deriving DecidableEq, Repr

/-- `delete_transaction` of `main.py` (lines 718-765): looks the row up
by id **and** owner (absent → "Transaction not found", nothing changes),
deletes it, and then adjusts the owning wallet (Python truthiness on
`wallet_id`) by `-amount` for `income` rows and by `+amount` for every
other type. -/
def delete_transaction (s : DB) (uid : Nat) (trans_id : Nat) : DelRes × DB :=
  match s.transactions.find? (fun t => t.id = trans_id && t.user_id = uid) with
  | none => (.notFound, s)
  | some t =>
    let s1 := { s with
                transactions := s.transactions.filter (fun x => !(x.id = trans_id)) }
    match truthyId t.wallet_id with
    | none => (.ok, s1)
    | some wid =>
      let adjustment := if t.ttype = tIncome then -t.amount else t.amount
      (.ok, { s1 with wallets := updBal s1.wallets wid adjustment })

/-- The `context.user_data['transfer']` dict as used by
`process_transfer`: source/target wallet ids and their currencies,
captured when the wallets were selected. -/
structure TransferData where
  from_wallet : Nat
  to_wallet : Nat
  from_currency : String
  to_currency : String
deriving DecidableEq, Repr

/-- Result of `process_transfer`. -/
inductive TransRes
  | invalidAmount
  | missingData
  | sourceNotFound
  | insufficientFunds
  | ok
deriving DecidableEq, Repr

/-- `process_transfer` of `main.py` (lines 2022-2139): validates
`amount > 0`, re-reads the source balance, rejects
`amount > source_balance` (pre-conversion, source currency), converts
the amount for the credit leg when the currencies differ, then applies
both balance updates and inserts both `transfer` rows before the single
commit. -/
def process_transfer (fetch : RatesFetch) (date : String) (s : DB)
    (uid : Nat) (amount : ℚ) (td : Option TransferData) : TransRes × DB :=
  if amount ≤ 0 then (.invalidAmount, s)
  else
    match td with
    | none => (.missingData, s)
    | some t =>
      match s.wallets.find?
          (fun w => w.id = t.from_wallet && w.user_id = uid) with
      | none => (.sourceNotFound, s)
      | some w =>
        if w.balance < amount then (.insufficientFunds, s)
        else
          let converted :=
            if t.from_currency ≠ t.to_currency
            then convert_currency fetch amount t.from_currency t.to_currency
            else amount
          let from_name := get_wallet_name s t.from_wallet
          let to_name := get_wallet_name s t.to_wallet
          (.ok,
           { s with
             wallets :=
               updBal (updBal s.wallets t.from_wallet (-amount))
                 t.to_wallet converted,
             transactions := s.transactions ++
               [⟨s.next_txn_id, uid, tTransfer, -amount,
                 ("Transfer to ") ++ to_name, date, t.from_currency,
                 none, some t.from_wallet⟩,
                ⟨s.next_txn_id + 1, uid, tTransfer, converted,
                 ("Transfer from ") ++ from_name, date, t.to_currency,
                 none, some t.to_wallet⟩],
             next_txn_id := s.next_txn_id + 2 })

/-- The `converted_amount` local of `process_transfer` (lines 2061-2065):
the credit-leg amount, converted from the source to the target currency
when they differ. -/
def transferCredit (fetch : RatesFetch) (amount : ℚ) (t : TransferData) : ℚ :=
  if t.from_currency ≠ t.to_currency
  then convert_currency fetch amount t.from_currency t.to_currency
  else amount

/-- One iteration of the loop of `process_recurring_transactions`
(`main.py` lines 773-814) on a due rule: resolve the default wallet
(truthiness on the id; absent → `continue`, i.e. the state is returned
unchanged and the loop goes on), read its currency (`fetchone()[0]`
would raise `TypeError` if the row vanished — modelled as an aborting
exception), convert the amount when the currencies differ, negate it
for `outcome` rules, then insert the transaction and add the same signed
amount to the wallet balance. -/
def recurring_step (fetch : RatesFetch) (date : String) (s : DB)
    (r : Recurring) : Except PyExc DB :=
  match truthyId (get_default_wallet s r.user_id) with
  | none => .ok s
  | some wid =>
    match s.wallets.find? (fun w => w.id = wid) with
    | none => .error .typeError
    | some w =>
      let converted :=
        if r.currency ≠ w.currency
        then convert_currency fetch r.amount r.currency w.currency
        else r.amount
      let cur := if r.currency ≠ w.currency then w.currency else r.currency
      let amt := if r.rtype = tOutcome then -converted else converted
      .ok
        { s with
          transactions := s.transactions ++
            [⟨s.next_txn_id, r.user_id, r.rtype, amt, r.description, date,
              cur, none, some wid⟩],
          next_txn_id := s.next_txn_id + 1,
          wallets := updBal s.wallets wid amt }

/-- `process_recurring_transactions` of `main.py` (lines 767-814): one
daily tick.  The due rules (`day_of_month == today` and active) are
snapshotted up front and processed in order; an exception in one
iteration would abort the remaining ones, which the `Except` fold
mirrors. -/
def process_recurring_transactions (fetch : RatesFetch) (date : String)
    (today : Nat) (s : DB) : Except PyExc DB :=
  (s.recurring.filter (fun r => r.day_of_month = today && r.is_active)).foldlM
    (recurring_step fetch date) s

/-- `add_wallet` of `main.py` (lines 1104-1136), database core: rejects
an unknown currency code, otherwise inserts the wallet with
`is_default = 1` exactly when the user had no wallet yet. -/
def add_wallet (s : DB) (uid : Nat) (name currency : String) : DB :=
  if !(CURRENCIES.contains currency) then s
  else
    let count := (s.wallets.filter (fun w => w.user_id = uid)).length
    { s with
      wallets := s.wallets ++
        [⟨s.next_wallet_id, uid, name, currency, 0, count = 0⟩],
      next_wallet_id := s.next_wallet_id + 1 }

/-- `handle_set_default` of `main.py` (lines 1161-1218), database core:
first `UPDATE wallets SET is_default = 0` for the user, then
`is_default = 1` on the requested id for that user; both updates are
committed whether or not the verification re-read finds the wallet
(returning from inside the `with` block commits). -/
def handle_set_default (s : DB) (uid : Nat) (wid : Nat) : Bool × DB :=
  let cleared := s.wallets.map
    (fun w => if w.user_id = uid then { w with is_default := false } else w)
  let setl := cleared.map
    (fun w => if w.id = wid && w.user_id = uid
              then { w with is_default := true } else w)
  let found := (setl.find? (fun w => w.id = wid && w.user_id = uid)).isSome
  (found, { s with wallets := setl })

/-- The operations quantified over by the default-wallet invariant. -/
inductive WOp
  | createWallet (uid : Nat) (name currency : String)
  | setDefault (uid wid : Nat)
deriving DecidableEq, Repr

/-- Apply one wallet operation. -/
def applyOp (s : DB) (op : WOp) : DB :=
  match op with
  | .createWallet uid name currency => add_wallet s uid name currency
  | .setDefault uid wid => (handle_set_default s uid wid).2

/-- A `setDefault` is valid when it names an existing wallet of that
user, which is what the inline keyboard of `set_default_wallet`
guarantees (it only offers the user's own wallets, and wallets are
never deleted). -/
def validOp (s : DB) (op : WOp) : Bool :=
  match op with
  | .createWallet _ _ _ => true
  | .setDefault uid wid => s.wallets.any (fun w => w.id = wid && w.user_id = uid)

/-- All operations of the sequence are valid in the state they run in. -/
def validSeq (s : DB) : List WOp → Bool
  | [] => true
  | op :: rest => validOp s op && validSeq (applyOp s op) rest

/-- Run a sequence of wallet operations. -/
def applySeq (s : DB) (ops : List WOp) : DB :=
  ops.foldl applyOp s

/-- Number of wallets of `uid` with the default flag. -/
def countDefaults (s : DB) (uid : Nat) : Nat :=
  s.wallets.countP (fun w => w.user_id = uid && w.is_default)

/-- Does `uid` own at least one wallet? -/
def hasWallet (s : DB) (uid : Nat) : Bool :=
  s.wallets.any (fun w => w.user_id = uid)

/-- The empty database (`init_db` on a fresh file; categories omitted as
irrelevant to the wallet claims, rowids start at 1). -/
def DB0 : DB :=
  ⟨[], [], [], [], [], 1, 1, 1, 1⟩

/-- The seven category rows inserted by `init_db`. -/
def initCats : List (Nat × String) :=
  [(1, ("Food")), (2, ("Transport")), (3, ("Housing")), (4, ("Entertainment")),
   (5, ("Healthcare")), (6, ("Income")), (7, ("Other"))]

/-- Concrete state for claim C1: one USD wallet with balance 100. -/
def sC1 : DB :=
  ⟨[⟨1, 7, ("Main"), cUSD, 100, true⟩], [], [], [], [], 2, 1, 1, 1⟩

/-- The wallet of `sC1`. -/
def wC1 : Wallet := ⟨1, 7, ("Main"), cUSD, 100, true⟩

/-- Concrete state for claim C2, the scenario of the spec: wallet with
balance 750 after a 200 hold was sourced from it. -/
def sC2 : DB :=
  ⟨[⟨1, 7, ("W"), cUSD, 750, true⟩], [],
   [⟨1, 7, 200, ("Rent"), cUSD, some 1, ("")⟩], [], [], 2, 1, 2, 1⟩

/-- Concrete state for claim C3: one empty USD wallet, fresh category
table. -/
def sC3 : DB :=
  ⟨[⟨1, 7, ("W"), cUSD, 0, true⟩], [], [], [], initCats, 2, 1, 1, 8⟩

/-- Concrete state for claim C4: source wallet with balance 5. -/
def sC4 : DB :=
  ⟨[⟨1, 7, ("A"), cUSD, 5, true⟩, ⟨2, 7, ("B"), ("EUR"), 0, false⟩],
   [], [], [], [], 3, 1, 1, 1⟩

/-- Transfer request for claim C4. -/
def tdC4 : TransferData := ⟨1, 2, cUSD, ("EUR")⟩

/-- Concrete state for claim C5: RUB source wallet, USD target wallet. -/
def sC5 : DB :=
  ⟨[⟨1, 7, ("r"), ("RUB"), 10, true⟩, ⟨2, 7, ("d"), cUSD, 5, false⟩],
   [], [], [], [], 3, 1, 1, 1⟩

/-- Rate table for claim C5 (RUB at 80 per USD). -/
def fC5 : RatesFetch := some [(cUSD, 1), (("RUB"), 80)]

/-- Transfer request for claim C5. -/
def tdC5 : TransferData := ⟨1, 2, ("RUB"), cUSD⟩

/-- Source wallet of `sC5`. -/
def wC5a : Wallet := ⟨1, 7, ("r"), ("RUB"), 10, true⟩

/-- Target wallet of `sC5`. -/
def wC5b : Wallet := ⟨2, 7, ("d"), cUSD, 5, false⟩

/-- Concrete state for claim C6, the scenario of the spec: default EUR
wallet, one active USD outcome rule due on day 15. -/
def sC6 : DB :=
  ⟨[⟨1, 7, ("W"), ("EUR"), 0, true⟩], [], [],
   [⟨1, 7, tOutcome, 100, ("Rent"), cUSD, 15, true⟩], [], 2, 1, 1, 1⟩

/-- The rule of `sC6`. -/
def rC6 : Recurring := ⟨1, 7, tOutcome, 100, ("Rent"), cUSD, 15, true⟩

/-- The default wallet of `sC6`. -/
def wC6 : Wallet := ⟨1, 7, ("W"), ("EUR"), 0, true⟩

/-- Rate table for claim C6 (USD→EUR at 0.90). -/
def fC6 : RatesFetch := some [(cUSD, 1), (("EUR"), 9/10)]

/-- Expected state after the claim C6 tick: a -90.00 EUR transaction and
the wallet debited by 90. -/
def tC6 : DB :=
  ⟨[⟨1, 7, ("W"), ("EUR"), -90, true⟩],
   [⟨1, 7, tOutcome, -90, ("Rent"), ("dt"), ("EUR"), none, some 1⟩], [],
   [⟨1, 7, tOutcome, 100, ("Rent"), cUSD, 15, true⟩], [], 2, 2, 1, 1⟩

/-- Operation sequence for claim C7's witness. -/
def opsC7 : List WOp :=
  [WOp.createWallet 7 ("a") cUSD, WOp.createWallet 7 ("b") ("EUR"),
   WOp.setDefault 7 1, WOp.createWallet 9 ("c") cUSD, WOp.setDefault 7 2]

/-- Rate table for claim C8's counterexample: EUR known, RUB missing. -/
def fC8 : RatesFetch := some [(cUSD, 1), (("EUR"), 9/10)]

/-- Concrete state for claim C10: a wallet-sourced hold to resolve. -/
def sC10 : DB :=
  ⟨[⟨1, 4, ("W"), cUSD, 40, true⟩], [],
   [⟨3, 4, 25, ("Gift"), cUSD, some 1, ("")⟩], [], [], 2, 1, 4, 1⟩

/-- The hold of `sC10`. -/
def hC10 : Hold := ⟨3, 4, 25, ("Gift"), cUSD, some 1, ("")⟩

/-- The default-wallet invariant maintained by the wallet operations:
wallet ids are distinct and below the allocator, and every user owning a
wallet has exactly one default. -/
def WInv (s : DB) : Prop :=
  (s.wallets.map (fun w => w.id)).Nodup ∧
  (∀ w ∈ s.wallets, w.id < s.next_wallet_id) ∧
  (∀ u, hasWallet s u = true → countDefaults s u = 1)

/-- Positivity of a rate table (what the exchange-rate API returns). -/
def RatesPos (fetch : RatesFetch) : Prop :=
  ∀ rates, fetch = some rates → ∀ p ∈ rates, (0 : ℚ) < p.2

/-! ## Helper lemmas -/

theorem find?_map_invariant {α : Type} (f : α → α) (q : α → Bool)
    (h : ∀ x, q (f x) = q x) :
    ∀ l : List α, (l.map f).find? q = (l.find? q).map f := by
  intro l
  induction l with
  | nil => rfl
  | cons a t ih =>
    by_cases hq : q a = true
    · rw [List.map_cons, List.find?_cons_of_pos _ (by rw [h a]; exact hq),
        List.find?_cons_of_pos _ hq]
      rfl
    · rw [List.map_cons,
        List.find?_cons_of_neg _ (by rw [h a]; simpa using hq),
        List.find?_cons_of_neg _ (by simpa using hq), ih]

theorem updBal_pred_invariant (wid uid wid2 : Nat) (d : ℚ) (x : Wallet) :
    ((fun w : Wallet => w.id = wid2 && w.user_id = uid)
      (if x.id = wid then { x with balance := x.balance + d } else x))
    = (x.id = wid2 && x.user_id = uid) := by
  by_cases hx : x.id = wid <;> simp [hx]

theorem updBal_find?_match (l : List Wallet) (wid uid : Nat) (d : ℚ)
    (w : Wallet)
    (hw : l.find? (fun x => x.id = wid && x.user_id = uid) = some w) :
    (updBal l wid d).find? (fun x => x.id = wid && x.user_id = uid)
      = some { w with balance := w.balance + d } := by
  have hid : w.id = wid := by
    have := List.find?_some hw
    simp at this
    exact this.1
  rw [updBal, find?_map_invariant _ _ (updBal_pred_invariant wid uid wid d), hw]
  simp [hid]

theorem updBal_find?_frame (l : List Wallet) (wid wid2 uid : Nat) (d : ℚ)
    (w : Wallet) (hne : wid2 ≠ wid)
    (hw : l.find? (fun x => x.id = wid2 && x.user_id = uid) = some w) :
    (updBal l wid d).find? (fun x => x.id = wid2 && x.user_id = uid)
      = some w := by
  have hid : w.id = wid2 := by
    have := List.find?_some hw
    simp at this
    exact this.1
  rw [updBal, find?_map_invariant _ _ (updBal_pred_invariant wid uid wid2 d), hw]
  simp [hid, hne]

/-! ## Claim theorems -/

/-- Claim C10: resolving a hold that exists (to income or to outcome)
always raises `AttributeError` at `hold.get('wallet_id')`, before the
bookkeeping transaction is inserted or the hold deleted, so the database
state is returned unchanged. -/
theorem transfer_hold_always_raises (date : String) (s : DB) (uid : Nat)
    (action : String) (hid : Nat) (h : Hold)
    (hh : s.holds.find? (fun x => x.id = hid) = some h) :
    transfer_hold date s uid action hid = (.raised .attributeError, s) := by
  rw [transfer_hold, hh]
  rfl

/-- Witness for claim C10 at a concrete wallet-sourced hold. -/
theorem transfer_hold_always_raises_witness :
    transfer_hold ("dt") sC10 4 tOutcome 3 = (.raised .attributeError, sC10) :=
  transfer_hold_always_raises ("dt") sC10 4 tOutcome 3 hC10 (by decide)

/-- Claim C2 (code bug): at the spec's own scenario (wallet balance 750
after a 200 hold), resolving the hold to outcome does not delete the
hold, records no outcome transaction, and leaves no trace — the handler
raises `AttributeError` instead of performing the documented resolution. -/
theorem resolve_outcome_crashes_not_frame :
    transfer_hold ("dt") sC2 7 tOutcome 1 = (.raised .attributeError, sC2) ∧
    (transfer_hold ("dt") sC2 7 tOutcome 1).2.holds =
      [⟨1, 7, 200, ("Rent"), cUSD, some 1, ("")⟩] ∧
    (transfer_hold ("dt") sC2 7 tOutcome 1).2.transactions = [] := by
  refine ⟨?_, ?_, ?_⟩ <;> decide

/-- Unfolding one input line of `add_hold`. -/
theorem add_hold_cons (s : DB) (uid : Nat) (cur : String)
    (l : Option (ℚ × String)) (ls : List (Option (ℚ × String))) :
    add_hold s uid cur (l :: ls) =
      add_hold
        (match l with
         | none => s
         | some ad =>
           { s with
             holds := s.holds ++
               [⟨s.next_hold_id, uid, ad.1, ad.2, cur, none, ("")⟩],
             next_hold_id := s.next_hold_id + 1 })
        uid cur ls := rfl

/-- `add_hold` only appends holds: existing rows survive. -/
theorem add_hold_holds_mono (uid : Nat) (cur : String) :
    ∀ (lines : List (Option (ℚ × String))) (s : DB) (h : Hold),
      h ∈ s.holds → h ∈ (add_hold s uid cur lines).holds := by
  intro lines
  induction lines with
  | nil => intro s h hm; exact hm
  | cons l ls ih =>
    intro s h hm
    rw [add_hold_cons]
    cases l with
    | none => exact ih s h hm
    | some ad => exact ih _ h (List.mem_append_left _ hm)

/-- Claim C1 (counterexample): creating a 30.00 hold from a wallet with
balance 100.00 and then removing the hold leaves the balance at 70.00,
not the pre-hold 100.00 — `remove_hold` deletes the row without
crediting the wallet back. -/
theorem hold_round_trip_not_restored :
    (remove_hold (process_hold_from_wallet sC1 7 (some 1) 30).2 1).wallets
      = [⟨1, 7, ("Main"), cUSD, 70, true⟩] ∧
    ¬ ((70 : ℚ) = 100) ∧
    (remove_hold (process_hold_from_wallet sC1 7 (some 1) 30).2 1).holds = [] ∧
    (remove_hold (process_hold_from_wallet sC1 7 (some 1) 30).2 1).transactions
      = [] := by
  have h : remove_hold (process_hold_from_wallet sC1 7 (some 1) 30).2 1 =
      ⟨[⟨1, 7, ("Main"), cUSD, 70, true⟩], [], [], [], [], 2, 1, 2, 1⟩ := by
    norm_num [process_hold_from_wallet, remove_hold, sC1, truthyId, updBal,
      get_wallet_name]
  rw [h]
  refine ⟨rfl, by norm_num, rfl, rfl⟩

/-- Claim C1 (amended): `CreateHold` from a wallet followed by `Remove`
records no transaction and deletes the hold, but leaves the source
wallet balance at its pre-hold value **minus** `hold.amount`: the
earmarked funds are not returned. -/
theorem hold_create_remove_keeps_debit (s : DB) (uid wid : Nat) (a : ℚ)
    (w : Wallet) (hwid : wid ≠ 0)
    (hw : s.wallets.find? (fun x => x.id = wid && x.user_id = uid) = some w)
    (hpos : 0 < a) (hle : a ≤ w.balance)
    (hfresh : ∀ h ∈ s.holds, h.id ≠ s.next_hold_id) :
    (remove_hold (process_hold_from_wallet s uid (some wid) a).2
        s.next_hold_id).transactions = s.transactions ∧
    (remove_hold (process_hold_from_wallet s uid (some wid) a).2
        s.next_hold_id).holds = s.holds ∧
    (remove_hold (process_hold_from_wallet s uid (some wid) a).2
        s.next_hold_id).wallets.find?
        (fun x => x.id = wid && x.user_id = uid)
      = some { w with balance := w.balance - a } := by
  have hstep : (process_hold_from_wallet s uid (some wid) a).2 =
      { s with
        holds := s.holds ++
          [⟨s.next_hold_id, uid, a, ("Hold from ") ++ get_wallet_name s wid,
            w.currency, some wid, ("")⟩],
        next_hold_id := s.next_hold_id + 1,
        wallets := updBal s.wallets wid (-a) } := by
    rw [process_hold_from_wallet, if_neg (not_le.mpr hpos)]
    simp only [truthyId, hwid, if_false, hw, if_neg (not_lt.mpr hle)]
  rw [hstep]
  refine ⟨rfl, ?_, ?_⟩
  · show (s.holds ++ [_]).filter _ = s.holds
    rw [List.filter_append]
    have h1 : s.holds.filter (fun h => !(h.id = s.next_hold_id)) = s.holds :=
      List.filter_eq_self.mpr (fun h hm => by simp [hfresh h hm])
    rw [h1]
    simp
  · show (updBal s.wallets wid (-a)).find? _ = _
    rw [updBal_find?_match s.wallets wid uid (-a) w hw, sub_eq_add_neg]

/-- Witness for the amended claim C1 at the concrete `sC1`. -/
theorem hold_create_remove_keeps_debit_witness :
    (remove_hold (process_hold_from_wallet sC1 7 (some 1) 30).2
        sC1.next_hold_id).transactions = sC1.transactions ∧
    (remove_hold (process_hold_from_wallet sC1 7 (some 1) 30).2
        sC1.next_hold_id).holds = sC1.holds ∧
    (remove_hold (process_hold_from_wallet sC1 7 (some 1) 30).2
        sC1.next_hold_id).wallets.find?
        (fun x => x.id = 1 && x.user_id = 7)
      = some { wC1 with balance := wC1.balance - 30 } :=
  hold_create_remove_keeps_debit sC1 7 1 30 wC1 (by decide) (by decide)
    (by decide) (by decide) (by decide)

/-- Claim C9 (counterexample): the plain hold-creation path persists a
hold of amount -5 — a non-positive amount is accepted and stored. -/
theorem hold_negative_amount_persisted :
    (add_hold DB0 7 cUSD [some (-5, ("x"))]).holds
      = [⟨1, 7, -5, ("x"), cUSD, none, ("")⟩] ∧
    ¬ ((0 : ℚ) < -5) := by
  exact ⟨by decide, by decide⟩

/-- Claim C9 (amended): only the wallet-sourced creation path rejects a
non-positive amount (with `InvalidAmount`, creating no hold and touching
nothing); the plain `add_hold` path performs no positivity check and
persists a hold for every parsed line, whatever the sign of its
amount. -/
theorem hold_amount_validation_split :
    (∀ (s : DB) (uid : Nat) (cw : Option Nat) (a : ℚ), a ≤ 0 →
      process_hold_from_wallet s uid cw a = (.invalidAmount, s)) ∧
    (∀ (s : DB) (uid : Nat) (cur : String) (a : ℚ) (d : String)
      (rest : List (Option (ℚ × String))),
      (⟨s.next_hold_id, uid, a, d, cur, none, ("")⟩ : Hold) ∈
        (add_hold s uid cur (some (a, d) :: rest)).holds) := by
  constructor
  · intro s uid cw a ha
    rw [process_hold_from_wallet, if_pos ha]
  · intro s uid cur a d rest
    rw [add_hold_cons]
    exact add_hold_holds_mono uid cur rest _ _
      (List.mem_append_right _ (by simp))

/-- Witness for the amended claim C9: both conjuncts at concrete
inputs. -/
theorem hold_amount_validation_split_witness :
    process_hold_from_wallet DB0 7 (some 1) (-5) = (.invalidAmount, DB0) ∧
    (⟨DB0.next_hold_id, 7, -5, ("x"), cUSD, none, ("")⟩ : Hold) ∈
      (add_hold DB0 7 cUSD (some (-5, ("x")) :: [])).holds :=
  ⟨hold_amount_validation_split.1 DB0 7 (some 1) (-5) (by decide),
   hold_amount_validation_split.2 DB0 7 cUSD (-5) ("x") []⟩

/-- Claim C3 (code bug): record an income of 1000.00 and an outcome of
50.00 (balance 950.00), then delete the outcome transaction.  The claim
(and the spec) require the balance to return to 1000.00 — the value it
would have had without the outcome — but `delete_transaction` adds the
stored signed amount (-50) instead of subtracting it, leaving 900.00:
the outcome is applied a second time rather than reversed. -/
theorem delete_outcome_not_reversed :
    (add_income none ("d1") sC3 7 (some 1) 1000 none ("Salary")).2.wallets.map
        (fun w => w.balance) = [1000] ∧
    (add_outcome none ("d2")
        (add_income none ("d1") sC3 7 (some 1) 1000 none ("Salary")).2
        7 (some 1) 50 none ("Groceries")).2.wallets.map
        (fun w => w.balance) = [950] ∧
    (delete_transaction
        (add_outcome none ("d2")
          (add_income none ("d1") sC3 7 (some 1) 1000 none ("Salary")).2
          7 (some 1) 50 none ("Groceries")).2
        7 2).1 = .ok ∧
    (delete_transaction
        (add_outcome none ("d2")
          (add_income none ("d1") sC3 7 (some 1) 1000 none ("Salary")).2
          7 (some 1) 50 none ("Groceries")).2
        7 2).2.wallets.map (fun w => w.balance) = [900] ∧
    ¬ ((900 : ℚ) = 1000) := by
  have h1 : (add_income none ("d1") sC3 7 (some 1) 1000 none ("Salary")).2 =
      ⟨[⟨1, 7, ("W"), cUSD, 1000, true⟩],
       [⟨1, 7, tIncome, 1000, ("Salary"), ("d1"), cUSD, none, some 1⟩],
       [], [], initCats, 2, 2, 1, 8⟩ := by
    norm_num [add_income, sC3, truthyId, updBal]
  have h2 : (add_outcome none ("d2")
      (add_income none ("d1") sC3 7 (some 1) 1000 none ("Salary")).2
      7 (some 1) 50 none ("Groceries")).2 =
      ⟨[⟨1, 7, ("W"), cUSD, 950, true⟩],
       [⟨1, 7, tIncome, 1000, ("Salary"), ("d1"), cUSD, none, some 1⟩,
        ⟨2, 7, tOutcome, -50, ("Groceries"), ("d2"), cUSD, some 1, some 1⟩],
       [], [], initCats, 2, 3, 1, 8⟩ := by
    have hc : detect_category ("Groceries") = ("Food") := by decide
    rw [h1]
    norm_num [add_outcome, truthyId, updBal, hc, getOrCreateCat, initCats]
  have h3 : (delete_transaction
      (add_outcome none ("d2")
        (add_income none ("d1") sC3 7 (some 1) 1000 none ("Salary")).2
        7 (some 1) 50 none ("Groceries")).2
      7 2) =
      (.ok,
       ⟨[⟨1, 7, ("W"), cUSD, 900, true⟩],
        [⟨1, 7, tIncome, 1000, ("Salary"), ("d1"), cUSD, none, some 1⟩],
        [], [], initCats, 2, 3, 1, 8⟩) := by
    rw [h2]
    simp [delete_transaction, truthyId, updBal, tIncome, tOutcome]
    norm_num
  refine ⟨by rw [h1]; rfl, by rw [h2]; rfl, by rw [h3], by rw [h3]; rfl,
    by norm_num⟩

/-- Claim C4: a transfer whose (positive) amount exceeds the source
wallet balance — checked pre-conversion, in the source currency — is
rejected with the insufficient-funds error and the state is returned
exactly unchanged: no balance moves and no transaction rows are
written.  (A non-positive amount is rejected earlier as an invalid
amount, per the spec's error taxonomy.) -/
theorem transfer_insufficient_rejected (fetch : RatesFetch) (date : String)
    (s : DB) (uid : Nat) (amount : ℚ) (t : TransferData) (w : Wallet)
    (hw : s.wallets.find? (fun x => x.id = t.from_wallet && x.user_id = uid)
      = some w)
    (hpos : 0 < amount) (hgt : w.balance < amount) :
    process_transfer fetch date s uid amount (some t)
      = (.insufficientFunds, s) := by
  rw [process_transfer, if_neg (not_le.mpr hpos)]
  simp only [hw, if_pos hgt]

/-- Witness for claim C4: amount 10 against balance 5. -/
theorem transfer_insufficient_rejected_witness :
    process_transfer none ("d") sC4 7 10 (some tdC4)
      = (.insufficientFunds, sC4) :=
  transfer_insufficient_rejected none ("d") sC4 7 10 tdC4
    ⟨1, 7, ("A"), cUSD, 5, true⟩ (by decide) (by decide) (by decide)

/-- Claim C8 (counterexample): with a rate table that knows EUR but not
RUB, `convert_currency(100, EUR, RUB)` does not return the original 100
— the `except` clause returns the local `amount` after it was already
divided by the EUR rate, i.e. 1000/9. -/
theorem convert_partial_on_missing_target :
    convert_currency fC8 100 (("EUR")) (("RUB")) = 1000 / 9 ∧
    ¬ (convert_currency fC8 100 (("EUR")) (("RUB")) = 100) := by
  have h : convert_currency fC8 100 (("EUR")) (("RUB")) = 1000 / 9 := by
    simp [convert_currency, fC8, cUSD, List.lookup]
    norm_num
  exact ⟨h, by rw [h]; norm_num⟩

/-- Claim C8 (amended): every rate-retrieval failure makes
`convert_currency` return without raising, and it returns the original
amount in all failure cases **except** one: when the source rate was
already applied (source ≠ USD, known non-zero rate) and the target code
(≠ USD) is then missing from the table, the caller receives
`amount / rates[from]` — a partially converted value. -/
theorem convert_fallback_paths (fetch : RatesFetch) (amount : ℚ)
    (f t : String) :
    (fetch = none → f ≠ t → convert_currency fetch amount f t = amount) ∧
    (∀ rates, fetch = some rates → f ≠ t → f ≠ cUSD →
      rates.lookup f = none → convert_currency fetch amount f t = amount) ∧
    (∀ rates, fetch = some rates → f ≠ t → f ≠ cUSD →
      rates.lookup f = some 0 → convert_currency fetch amount f t = amount) ∧
    (∀ rates, fetch = some rates → f ≠ t → f = cUSD → t ≠ cUSD →
      rates.lookup t = none → convert_currency fetch amount f t = amount) ∧
    (∀ rates rf, fetch = some rates → f ≠ t → f ≠ cUSD → t ≠ cUSD →
      rates.lookup f = some rf → rf ≠ 0 → rates.lookup t = none →
      convert_currency fetch amount f t = amount / rf) := by
  refine ⟨?_, ?_, ?_, ?_, ?_⟩
  · intro hf hft
    subst hf
    rw [convert_currency, if_neg hft]
  · intro rates hf hft hfu hlf
    subst hf
    rw [convert_currency, if_neg hft]
    simp [hfu, hlf]
  · intro rates hf hft hfu hlf
    subst hf
    rw [convert_currency, if_neg hft]
    simp [hfu, hlf]
  · intro rates hf hft hfu htu hlt
    subst hf
    subst hfu
    rw [convert_currency, if_neg hft]
    simp [htu, hlt]
  · intro rates rf hf hft hfu htu hlf hrf hlt
    subst hf
    rw [convert_currency, if_neg hft]
    simp [hfu, htu, hlf, hlt, hrf]

/-- Witness for the amended claim C8: the fetch-failure conjunct and the
partial-conversion conjunct at concrete inputs. -/
theorem convert_fallback_paths_witness :
    convert_currency none 5 (("EUR")) (("RUB")) = 5 ∧
    convert_currency fC8 100 (("EUR")) (("RUB")) = 100 / (9 / 10) :=
  ⟨(convert_fallback_paths none 5 (("EUR")) (("RUB"))).1 rfl (by decide),
   (convert_fallback_paths fC8 100 (("EUR")) (("RUB"))).2.2.2.2
     [(cUSD, 1), (("EUR"), 9 / 10)] (9 / 10) rfl (by decide)
     (by decide) (by decide) (by simp [List.lookup, cUSD])
     (by norm_num) (by simp [List.lookup, cUSD])⟩

/-- A successful `List.lookup` witnesses membership. -/
theorem lookup_mem {l : List (String × ℚ)} {c : String} {r : ℚ}
    (h : l.lookup c = some r) : (c, r) ∈ l := by
  rw [List.lookup_eq_some_iff] at h
  obtain ⟨l1, l2, rfl, -⟩ := h
  simp

/-- Half-even rounding of a nonnegative rational is nonnegative. -/
theorem roundHalfEven_nonneg {x : ℚ} (hx : 0 ≤ x) : 0 ≤ roundHalfEven x := by
  rw [roundHalfEven]
  have h0 : (0 : ℤ) ≤ Int.floor x := Int.floor_nonneg.mpr hx
  split
  · exact h0
  · split
    · omega
    · split <;> omega

/-- `round2` of a nonnegative rational is nonnegative. -/
theorem round2_nonneg {x : ℚ} (hx : 0 ≤ x) : 0 ≤ round2 x := by
  rw [round2]
  have h := roundHalfEven_nonneg (x := 100 * x) (by positivity)
  have h2 : (0 : ℚ) ≤ (roundHalfEven (100 * x) : ℚ) := by exact_mod_cast h
  positivity

/-- With a positive rate table, conversion of a positive amount is
nonnegative on every path (including the fallback paths). -/
theorem convert_currency_nonneg (fetch : RatesFetch) (amount : ℚ)
    (f t : String) (hpos : 0 < amount) (hr : RatesPos fetch) :
    0 ≤ convert_currency fetch amount f t := by
  by_cases hft : f = t
  · rw [convert_currency.eq_def, if_pos hft]
    exact hpos.le
  rw [convert_currency.eq_def, if_neg hft]
  cases fetch with
  | none => exact hpos.le
  | some rates =>
    have hrp : ∀ p ∈ rates, (0 : ℚ) < p.2 := hr rates rfl
    dsimp only
    by_cases hfu : f = cUSD
    · rw [if_neg (by simp [hfu])]
      by_cases htu : t = cUSD
      · rw [if_neg (by simp [htu])]
        exact round2_nonneg hpos.le
      · rw [if_pos htu]
        cases hlt : rates.lookup t with
        | none => simp only [hlt]; exact hpos.le
        | some rt =>
          simp only [hlt]
          have hrt : 0 < rt := hrp (t, rt) (lookup_mem hlt)
          exact round2_nonneg (by positivity)
    · rw [if_pos hfu]
      cases hlf : rates.lookup f with
      | none => simp only [hlf]; exact hpos.le
      | some rf =>
        simp only [hlf]
        by_cases hrf : rf = 0
        · rw [if_pos hrf]
          exact hpos.le
        · rw [if_neg hrf]
          have hrfp : 0 < rf := hrp (f, rf) (lookup_mem hlf)
          have ha1 : 0 ≤ amount / rf := by positivity
          by_cases htu : t = cUSD
          · rw [if_neg (by simp [htu])]
            exact round2_nonneg ha1
          · rw [if_pos htu]
            cases hlt : rates.lookup t with
            | none => simp only [hlt]; exact ha1
            | some rt =>
              simp only [hlt]
              have hrt : 0 < rt := hrp (t, rt) (lookup_mem hlt)
              exact round2_nonneg (by positivity)

/-- Every run of `process_transfer` either succeeds or returns the state
exactly unchanged: no leg and no balance update is ever applied alone. -/
theorem process_transfer_ok_or_unchanged (fetch : RatesFetch) (date : String)
    (uid : Nat) (s : DB) (a : ℚ) (td : Option TransferData) :
    (process_transfer fetch date s uid a td).1 = .ok ∨
    (process_transfer fetch date s uid a td).2 = s := by
  rw [process_transfer.eq_def]
  split
  · exact Or.inr rfl
  · split
    · exact Or.inr rfl
    · split
      · exact Or.inr rfl
      · split
        · exact Or.inr rfl
        · exact Or.inl rfl

/-- Claim C5 (counterexample): a transfer of 0.01 from a RUB wallet to a
USD wallet (rate 80 RUB per USD) succeeds, but the credit leg written on
the target wallet has amount 0 — `round(0.01/80, 2) = 0.0` — so the
"positive" converted leg of the claim does not hold. -/
theorem transfer_credit_leg_can_be_zero :
    (process_transfer fC5 ("dt") sC5 7 (1 / 100) (some tdC5)).1 = .ok ∧
    (process_transfer fC5 ("dt") sC5 7 (1 / 100) (some tdC5)).2.transactions.map
      (fun x => x.amount) = [-(1 / 100), 0] ∧
    ¬ ((0 : ℚ) < 0) := by
  have hconv : convert_currency fC5 (1 / 100) (("RUB")) cUSD = 0 := by
    simp [convert_currency, fC5, cUSD, List.lookup]
    rw [round2, roundHalfEven]
    norm_num
  refine ⟨?_, ?_, by norm_num⟩
  · rw [process_transfer.eq_def]
    norm_num [sC5, tdC5, List.find?, cUSD]
  · rw [process_transfer.eq_def]
    norm_num [sC5, tdC5, List.find?, cUSD, hconv]
    rw [if_neg (by decide)]
    simpa [cUSD] using hconv

/-- Claim C5 (amended): a transfer with `0 < amount ≤ source balance`
debits the source wallet by the original amount, credits the target
wallet by the converted amount, and writes exactly two `transfer` rows —
a negative one (`-amount`, source currency, source wallet) and a
**nonnegative** converted one (target currency, target wallet; the
conversion result can round to zero for sub-cent amounts) — with both
legs and both balance updates applied together; every non-`ok` outcome
leaves the state untouched. -/
theorem transfer_success_semantics (fetch : RatesFetch) (date : String)
    (s : DB) (uid : Nat) (amount : ℚ) (t : TransferData) (w tw : Wallet)
    (hw : s.wallets.find? (fun x => x.id = t.from_wallet && x.user_id = uid)
      = some w)
    (htw : s.wallets.find? (fun x => x.id = t.to_wallet && x.user_id = uid)
      = some tw)
    (hne : t.to_wallet ≠ t.from_wallet)
    (hpos : 0 < amount) (hle : amount ≤ w.balance) (hr : RatesPos fetch) :
    (process_transfer fetch date s uid amount (some t)).1 = .ok ∧
    (process_transfer fetch date s uid amount (some t)).2.transactions =
      s.transactions ++
        [⟨s.next_txn_id, uid, tTransfer, -amount,
          ("Transfer to ") ++ get_wallet_name s t.to_wallet, date,
          t.from_currency, none, some t.from_wallet⟩,
         ⟨s.next_txn_id + 1, uid, tTransfer, transferCredit fetch amount t,
          ("Transfer from ") ++ get_wallet_name s t.from_wallet, date,
          t.to_currency, none, some t.to_wallet⟩] ∧
    -amount < 0 ∧ 0 ≤ transferCredit fetch amount t ∧
    (process_transfer fetch date s uid amount (some t)).2.wallets.find?
        (fun x => x.id = t.from_wallet && x.user_id = uid)
      = some { w with balance := w.balance - amount } ∧
    (process_transfer fetch date s uid amount (some t)).2.wallets.find?
        (fun x => x.id = t.to_wallet && x.user_id = uid)
      = some { tw with balance := tw.balance + transferCredit fetch amount t } ∧
    (∀ (s2 : DB) (a2 : ℚ) (td2 : Option TransferData),
      (process_transfer fetch date s2 uid a2 td2).1 ≠ .ok →
      (process_transfer fetch date s2 uid a2 td2).2 = s2) := by
  have hok : process_transfer fetch date s uid amount (some t) =
      (.ok,
       { s with
         wallets :=
           updBal (updBal s.wallets t.from_wallet (-amount)) t.to_wallet
             (transferCredit fetch amount t),
         transactions := s.transactions ++
           [⟨s.next_txn_id, uid, tTransfer, -amount,
             ("Transfer to ") ++ get_wallet_name s t.to_wallet, date,
             t.from_currency, none, some t.from_wallet⟩,
            ⟨s.next_txn_id + 1, uid, tTransfer, transferCredit fetch amount t,
             ("Transfer from ") ++ get_wallet_name s t.from_wallet, date,
             t.to_currency, none, some t.to_wallet⟩],
         next_txn_id := s.next_txn_id + 2 }) := by
    rw [process_transfer.eq_def, if_neg (not_le.mpr hpos)]
    simp only [hw, if_neg (not_lt.mpr hle)]
    rfl
  refine ⟨by rw [hok], by rw [hok], neg_neg_of_pos hpos, ?_, ?_, ?_, ?_⟩
  · rw [transferCredit]
    split
    · exact convert_currency_nonneg fetch amount t.from_currency
        t.to_currency hpos hr
    · exact hpos.le
  · rw [hok]
    show (updBal (updBal s.wallets t.from_wallet (-amount)) t.to_wallet
        (transferCredit fetch amount t)).find? _ = _
    rw [updBal_find?_frame _ t.to_wallet t.from_wallet uid _ _
        (Ne.symm hne)
        (updBal_find?_match s.wallets t.from_wallet uid (-amount) w hw),
      sub_eq_add_neg]
  · rw [hok]
    show (updBal (updBal s.wallets t.from_wallet (-amount)) t.to_wallet
        (transferCredit fetch amount t)).find? _ = _
    rw [updBal_find?_match _ t.to_wallet uid _ tw
        (updBal_find?_frame s.wallets t.from_wallet t.to_wallet uid
          (-amount) tw hne htw)]
  · intro s2 a2 td2 h2
    rcases process_transfer_ok_or_unchanged fetch date uid s2 a2 td2 with
      hok2 | hun
    · exact absurd hok2 h2
    · exact hun

/-- Witness for the amended claim C5: a 3.00 RUB transfer into the USD
wallet of `sC5`. -/
theorem transfer_success_semantics_witness :
    (process_transfer fC5 ("dt") sC5 7 3 (some tdC5)).1 = .ok ∧
    (process_transfer fC5 ("dt") sC5 7 3 (some tdC5)).2.transactions =
      sC5.transactions ++
        [⟨sC5.next_txn_id, 7, tTransfer, -3,
          ("Transfer to ") ++ get_wallet_name sC5 tdC5.to_wallet, ("dt"),
          tdC5.from_currency, none, some tdC5.from_wallet⟩,
         ⟨sC5.next_txn_id + 1, 7, tTransfer, transferCredit fC5 3 tdC5,
          ("Transfer from ") ++ get_wallet_name sC5 tdC5.from_wallet, ("dt"),
          tdC5.to_currency, none, some tdC5.to_wallet⟩] ∧
    -(3 : ℚ) < 0 ∧ 0 ≤ transferCredit fC5 3 tdC5 ∧
    (process_transfer fC5 ("dt") sC5 7 3 (some tdC5)).2.wallets.find?
        (fun x => x.id = tdC5.from_wallet && x.user_id = 7)
      = some { wC5a with balance := wC5a.balance - 3 } ∧
    (process_transfer fC5 ("dt") sC5 7 3 (some tdC5)).2.wallets.find?
        (fun x => x.id = tdC5.to_wallet && x.user_id = 7)
      = some { wC5b with balance := wC5b.balance + transferCredit fC5 3 tdC5 }
    := by
  have h := transfer_success_semantics fC5 ("dt") sC5 7 3 tdC5 wC5a wC5b
    (by decide) (by decide) (by decide) (by decide) (by decide)
    (by intro rates hfe p hp
        injection hfe with hfe
        subst hfe
        fin_cases hp <;> norm_num)
  exact ⟨h.1, h.2.1, h.2.2.1, h.2.2.2.1, h.2.2.2.2.1, h.2.2.2.2.2.1⟩

/-- With distinct wallet ids, looking a member wallet up by its id finds
exactly that wallet. -/
theorem find?_id_of_nodup (l : List Wallet)
    (hn : (l.map (fun w => w.id)).Nodup) (w : Wallet) (hm : w ∈ l) :
    l.find? (fun x => x.id = w.id) = some w := by
  induction l with
  | nil => cases hm
  | cons a t ih =>
    rcases List.mem_cons.mp hm with rfl | hmt
    · rw [List.find?_cons_of_pos _ (by simp)]
    · have hn' : (a.id :: t.map (fun w => w.id)).Nodup := by simpa using hn
      have hn2 := List.nodup_cons.mp hn'
      have hne : ¬ (a.id = w.id) := by
        intro he
        exact hn2.1 (he ▸ List.mem_map_of_mem (fun w => w.id) hmt)
      rw [List.find?_cons_of_neg _ (by simpa using hne)]
      exact ih hn2.2 hmt

/-- Every iteration of the recurring tick succeeds: the only raising
path (default-wallet row vanishing between the two reads) is
unreachable. -/
theorem recurring_step_ok (fetch : RatesFetch) (date : String) (s : DB)
    (r : Recurring) :
    ∃ u, recurring_step fetch date s r = .ok u := by
  cases htr : truthyId (get_default_wallet s r.user_id) with
  | none => exact ⟨s, by rw [recurring_step.eq_def, htr]⟩
  | some wid =>
    have hgd : ∃ v, get_default_wallet s r.user_id = some v ∧ v = wid := by
      cases hg : get_default_wallet s r.user_id with
      | none => rw [hg, truthyId] at htr; cases htr
      | some v =>
        rw [hg, truthyId] at htr
        by_cases hv : v = 0
        · rw [if_pos hv] at htr; cases htr
        · rw [if_neg hv] at htr
          exact ⟨v, rfl, Option.some.inj htr⟩
    obtain ⟨v, hg, rfl⟩ := hgd
    obtain ⟨w0, hw0, hw0id⟩ := Option.map_eq_some'.mp (by
      rw [get_default_wallet] at hg; exact hg)
    have hmem : w0 ∈ s.wallets := List.mem_of_find?_eq_some hw0
    have hsome : (s.wallets.find? (fun x => x.id = w0.id)).isSome :=
      List.find?_isSome.mpr ⟨w0, hmem, by simp⟩
    obtain ⟨w1, hw1⟩ := Option.isSome_iff_exists.mp hsome
    have hfin : s.wallets.find? (fun x => x.id = v) = some w1 := hw0id ▸ hw1
    cases hE : recurring_step fetch date s r with
    | ok u => exact ⟨u, rfl⟩
    | error e =>
      rw [recurring_step.eq_def, htr] at hE
      dsimp only at hE
      rw [hfin] at hE
      cases hE

/-- A fold of recurring steps never aborts. -/
theorem recurring_fold_ok (fetch : RatesFetch) (date : String) :
    ∀ (l : List Recurring) (s : DB),
      ∃ u, l.foldlM (recurring_step fetch date) s = .ok u := by
  intro l
  induction l with
  | nil => exact fun s => ⟨s, rfl⟩
  | cons r t ih =>
    intro s
    obtain ⟨s1, hs1⟩ := recurring_step_ok fetch date s r
    obtain ⟨u, hu⟩ := ih s1
    exact ⟨u, by rw [List.foldlM_cons, hs1]; simpa using hu⟩

/-- Claim C6: on a daily tick, a due rule whose user has no (truthy)
default wallet is skipped with no state change, and the fold over the
remaining due rules continues; a due rule with a default wallet `w`
produces exactly one transaction whose amount is the rule amount
converted to `w`'s currency and negated for `outcome` rules, and adds
that same amount to `w`'s balance; and the whole tick always runs to
completion (never aborts part-way). -/
theorem recurring_tick_semantics (fetch : RatesFetch) (date : String)
    (today : Nat) :
    (∀ (s : DB) (r : Recurring),
      truthyId (get_default_wallet s r.user_id) = none →
      recurring_step fetch date s r = .ok s) ∧
    (∀ (s : DB) (r : Recurring) (w : Wallet),
      (s.wallets.map (fun x => x.id)).Nodup →
      s.wallets.find? (fun x => x.user_id = r.user_id && x.is_default)
        = some w →
      w.id ≠ 0 →
      recurring_step fetch date s r = .ok
        { s with
          transactions := s.transactions ++
            [⟨s.next_txn_id, r.user_id, r.rtype,
              (if r.rtype = tOutcome
               then -(if r.currency ≠ w.currency
                      then convert_currency fetch r.amount r.currency
                        w.currency
                      else r.amount)
               else (if r.currency ≠ w.currency
                     then convert_currency fetch r.amount r.currency
                       w.currency
                     else r.amount)),
              r.description, date,
              (if r.currency ≠ w.currency then w.currency else r.currency),
              none, some w.id⟩],
          next_txn_id := s.next_txn_id + 1,
          wallets := updBal s.wallets w.id
            (if r.rtype = tOutcome
             then -(if r.currency ≠ w.currency
                    then convert_currency fetch r.amount r.currency w.currency
                    else r.amount)
             else (if r.currency ≠ w.currency
                   then convert_currency fetch r.amount r.currency w.currency
                   else r.amount)) }) ∧
    (∀ s : DB, ∃ u,
      process_recurring_transactions fetch date today s = .ok u) := by
  refine ⟨?_, ?_, ?_⟩
  · intro s r h
    rw [recurring_step.eq_def, h]
  · intro s r w hn hfind hwid
    have htr : truthyId (get_default_wallet s r.user_id) = some w.id := by
      rw [get_default_wallet, hfind]
      simp [truthyId, hwid]
    have hid : s.wallets.find? (fun x => x.id = w.id) = some w :=
      find?_id_of_nodup s.wallets hn w (List.mem_of_find?_eq_some hfind)
    rw [recurring_step.eq_def, htr]
    dsimp only
    rw [hid]
  · intro s
    rw [process_recurring_transactions]
    exact recurring_fold_ok fetch date _ s

/-- Witness for claim C6 at the spec's scenario: rule (outcome, 100 USD,
day 15), default wallet in EUR, rate 0.90 — a -90.00 EUR transaction is
recorded and the balance drops by 90; the full tick also runs to
completion on `sC6`. -/
theorem recurring_tick_semantics_witness :
    recurring_step fC6 ("dt") sC6 rC6 = .ok tC6 := by
  have h := (recurring_tick_semantics fC6 ("dt") 15).2.1 sC6 rC6 wC6
    (by decide) (by decide) (by decide)
  rw [h]
  have hconv : convert_currency fC6 100 cUSD (("EUR")) = 90 := by
    simp [convert_currency, fC6, cUSD, List.lookup]
    rw [round2, roundHalfEven]
    norm_num
  norm_num [sC6, rC6, wC6, tC6, tOutcome, tIncome, cUSD, updBal, hconv]
  rw [if_neg (by decide)]
  simpa [cUSD] using hconv

/-- Pointwise-equal functions map lists identically. -/
theorem map_pointwise {α β : Type} (f g : α → β) (h : ∀ x, f x = g x) :
    ∀ l : List α, l.map f = l.map g := by
  intro l
  induction l with
  | nil => rfl
  | cons a t ih => simp [h a, ih]

/-- Pointwise-equal predicates count lists identically. -/
theorem countP_pointwise (p q : Wallet → Bool) (h : ∀ x, p x = q x) :
    ∀ l : List Wallet, l.countP p = l.countP q := by
  intro l
  induction l with
  | nil => rfl
  | cons a t ih => rw [List.countP_cons, List.countP_cons, h a, ih]

/-- If ids are distinct and `p` pins the id down to that of a member
satisfying it, then exactly one element satisfies `p`. -/
theorem countP_key_unique :
    ∀ (l : List Wallet), (l.map (fun w => w.id)).Nodup →
    ∀ w0 ∈ l, ∀ p : Wallet → Bool, p w0 = true →
    (∀ w, p w = true → w.id = w0.id) → l.countP p = 1 := by
  intro l
  induction l with
  | nil => intro _ w0 hm; cases hm
  | cons a t ih =>
    intro hn w0 hm p hp0 hkey
    have hn' : (a.id :: t.map (fun w => w.id)).Nodup := by simpa using hn
    have hn2 := List.nodup_cons.mp hn'
    rw [List.countP_cons]
    rcases List.mem_cons.mp hm with rfl | hmt
    · rw [if_pos hp0]
      have ht0 : t.countP p = 0 := by
        rw [List.countP_eq_zero]
        intro w hw hpw
        exact hn2.1 ((hkey w hpw) ▸ List.mem_map_of_mem (fun w => w.id) hw)
      rw [ht0]
    · have hpa : ¬ (p a = true) := by
        intro hpa
        exact hn2.1 ((hkey a hpa) ▸ List.mem_map_of_mem (fun w => w.id) hmt)
      rw [if_neg hpa, ih hn2.2 w0 hmt p hp0 hkey]

/-- A user with no wallet has no default wallet. -/
theorem countDefaults_eq_zero_of_no_wallet (s : DB) (u : Nat)
    (h : hasWallet s u = false) : countDefaults s u = 0 := by
  have hall : ∀ w ∈ s.wallets, ¬ (w.user_id = u) := by
    rw [hasWallet] at h
    simpa using h
  rw [countDefaults, List.countP_eq_zero]
  intro w hw hpw
  simp at hpw
  exact hall w hw hpw.1

/-- Ownership of a wallet, spelt out. -/
theorem hasWallet_iff (s : DB) (u : Nat) :
    hasWallet s u = true ↔ ∃ w ∈ s.wallets, w.user_id = u := by
  rw [hasWallet, List.any_eq_true]
  simp

/-- `add_wallet` preserves the default-wallet invariant. -/
theorem WInv_add (s : DB) (uid : Nat) (name cur : String) (h : WInv s) :
    WInv (add_wallet s uid name cur) := by
  obtain ⟨h1, h2, h3⟩ := h
  rw [add_wallet]
  split
  · exact ⟨h1, h2, h3⟩
  refine ⟨?_, ?_, ?_⟩
  · show ((s.wallets ++ [_]).map (fun w : Wallet => w.id)).Nodup
    rw [List.map_append, List.nodup_append]
    refine ⟨h1, by simp, ?_⟩
    intro a ha hb
    simp at hb
    obtain ⟨w, hw, hwa⟩ := List.mem_map.mp ha
    have := h2 w hw
    omega
  · intro w hw
    rcases List.mem_append.mp hw with hm | hm
    · exact Nat.lt_succ_of_lt (h2 w hm)
    · simp at hm
      rw [hm]
      exact Nat.lt_succ_self _
  · intro u hu
    have hu2 : (∃ w ∈ s.wallets, w.user_id = u) ∨ uid = u := by
      rw [hasWallet] at hu
      dsimp only at hu
      rw [List.any_append] at hu
      simp at hu
      exact hu
    show (s.wallets ++ [_]).countP
      (fun w : Wallet => w.user_id = u && w.is_default) = 1
    rw [List.countP_append]
    by_cases huid : u = uid
    · subst huid
      by_cases hwal : hasWallet s u = true
      · have hc1 := h3 u hwal
        rw [countDefaults] at hc1
        have hfne : ¬ ((s.wallets.filter
            (fun w => w.user_id = u)).length = 0) := by
          intro h0
          rw [List.length_eq_zero, List.filter_eq_nil_iff] at h0
          obtain ⟨w, hwm, hwu⟩ := (hasWallet_iff s u).mp hwal
          have h0' := h0 w hwm
          simp at h0'
          exact h0' hwu
        rw [hc1]
        simp [hfne]
      · have hc0 : s.wallets.countP
            (fun w => w.user_id = u && w.is_default) = 0 := by
          have := countDefaults_eq_zero_of_no_wallet s u
            (Bool.not_eq_true _ ▸ hwal)
          rwa [countDefaults] at this
        have hf0 : (s.wallets.filter (fun w => w.user_id = u)).length = 0 := by
          rw [List.length_eq_zero, List.filter_eq_nil_iff]
          intro w hwm hwu
          exact hwal ((hasWallet_iff s u).mpr ⟨w, hwm, by simpa using hwu⟩)
        rw [hc0]
        simp [hf0]
    · have hne2 : ¬ (uid = u) := fun hh => huid hh.symm
      have hwu : s.wallets.any (fun w => w.user_id = u) = true := by
        rcases hu2 with hex | hq
        · rw [List.any_eq_true]
          obtain ⟨w, hwm, hwp⟩ := hex
          exact ⟨w, hwm, by simpa using hwp⟩
        · exact absurd hq hne2
      have hc1 := h3 u ((by rw [hasWallet]; exact hwu) : hasWallet s u = true)
      rw [countDefaults] at hc1
      rw [hc1]
      simp [hne2]

/-- `countP` over a mapped list counts the composed predicate. -/
theorem countP_map_wallet (p : Wallet → Bool) (f : Wallet → Wallet) :
    ∀ l : List Wallet, (l.map f).countP p = l.countP (fun w => p (f w)) := by
  intro l
  induction l with
  | nil => rfl
  | cons a t ih => rw [List.map_cons, List.countP_cons, List.countP_cons, ih]

/-- `any` over a mapped list tests the composed predicate. -/
theorem any_map_wallet (p : Wallet → Bool) (f : Wallet → Wallet) :
    ∀ l : List Wallet, (l.map f).any p = l.any (fun w => p (f w)) := by
  intro l
  induction l with
  | nil => rfl
  | cons a t ih => rw [List.map_cons, List.any_cons, List.any_cons, ih]

/-- Pointwise-equal predicates agree on `any`. -/
theorem any_pointwise (p q : Wallet → Bool) (h : ∀ x, p x = q x) :
    ∀ l : List Wallet, l.any p = l.any q := by
  intro l
  induction l with
  | nil => rfl
  | cons a t ih => rw [List.any_cons, List.any_cons, h a, ih]

/-- The two `UPDATE`s of `handle_set_default` amount to one pointwise
rewrite of the user's wallets: the default flag becomes `id = wid`. -/
theorem handle_set_default_wallets (s : DB) (uid wid : Nat) :
    ((handle_set_default s uid wid).2).wallets =
      s.wallets.map (fun w => if w.user_id = uid
        then { w with is_default := w.id = wid } else w) := by
  rw [handle_set_default]
  dsimp only
  rw [List.map_map]
  apply map_pointwise
  intro w
  by_cases h1 : w.user_id = uid <;> by_cases h2 : w.id = wid <;>
    simp [Function.comp, h1, h2]

/-- `handle_set_default` on an existing wallet of the user preserves the
default-wallet invariant. -/
theorem WInv_setDefault (s : DB) (uid wid : Nat) (h : WInv s)
    (hv : s.wallets.any (fun w => w.id = wid && w.user_id = uid) = true) :
    WInv (handle_set_default s uid wid).2 := by
  obtain ⟨h1, h2, h3⟩ := h
  obtain ⟨w0, hw0m, hw0p⟩ := List.any_eq_true.mp hv
  simp at hw0p
  have hwl := handle_set_default_wallets s uid wid
  have hid : ∀ w : Wallet,
      ((if w.user_id = uid
        then { w with is_default := (w.id = wid : Bool) } else w) : Wallet).id
        = w.id := by
    intro w
    by_cases h1 : w.user_id = uid <;> simp [h1]
  have huser : ∀ w : Wallet,
      ((if w.user_id = uid
        then { w with is_default := (w.id = wid : Bool) } else w) : Wallet).user_id
        = w.user_id := by
    intro w
    by_cases h1 : w.user_id = uid <;> simp [h1]
  have hnext : ((handle_set_default s uid wid).2).next_wallet_id
      = s.next_wallet_id := rfl
  have hhas : ∀ v, hasWallet ((handle_set_default s uid wid).2) v
      = hasWallet s v := by
    intro v
    rw [hasWallet, hasWallet, hwl, any_map_wallet]
    exact any_pointwise _ _ (fun w => by rw [huser w]) s.wallets
  refine ⟨?_, ?_, ?_⟩
  · rw [hwl, List.map_map]
    rw [map_pointwise _ (fun w : Wallet => w.id) (fun w => by
      simp only [Function.comp]
      exact hid w) s.wallets]
    exact h1
  · intro w hw
    rw [hwl] at hw
    obtain ⟨w1, hw1, hmap⟩ := List.mem_map.mp hw
    rw [hnext, ← hmap, hid w1]
    exact h2 w1 hw1
  · intro u hu
    rw [countDefaults, hwl, countP_map_wallet]
    by_cases huid : u = uid
    · subst huid
      rw [countP_pointwise _
        (fun w : Wallet => w.user_id = u && w.id = wid) (fun w => by
          by_cases hx : w.user_id = u <;> by_cases hy : w.id = wid <;>
            simp [hx, hy])]
      exact countP_key_unique s.wallets h1 w0 hw0m _
        (by simp [hw0p.1, hw0p.2]) (fun w hpw => by
          simp at hpw
          rw [hpw.2, hw0p.1])
    · rw [countP_pointwise _
        (fun w : Wallet => w.user_id = u && w.is_default) (fun w => by
          by_cases hx : w.user_id = uid
          · simp [hx, show ¬ (uid = u) from fun hh => huid hh.symm]
          · simp [hx])]
      have hc := h3 u (by rw [← hhas u]; exact hu)
      rwa [countDefaults] at hc

/-- The empty database satisfies the default-wallet invariant. -/
theorem WInv_DB0 : WInv DB0 := by
  refine ⟨by simp [DB0], by simp [DB0], ?_⟩
  intro u hu
  rw [hasWallet, DB0] at hu
  cases hu

/-- Valid operation sequences preserve the invariant. -/
theorem WInv_seq : ∀ (ops : List WOp) (s : DB), WInv s →
    validSeq s ops = true → WInv (applySeq s ops) := by
  intro ops
  induction ops with
  | nil => intro s h _; exact h
  | cons op rest ih =>
    intro s h hv
    rw [validSeq, Bool.and_eq_true] at hv
    have hstep : applySeq s (op :: rest) = applySeq (applyOp s op) rest := rfl
    rw [hstep]
    refine ih (applyOp s op) ?_ hv.2
    cases op with
    | createWallet uid n c => exact WInv_add s uid n c h
    | setDefault uid wid =>
      refine WInv_setDefault s uid wid h ?_
      have h1 := hv.1
      rwa [validOp] at h1

/-- Claim C7: the first wallet a user creates is stored with the default
flag set, and after any sequence of `CreateWallet` and (valid)
`SetDefaultWallet` operations starting from an empty store, every user
who owns at least one wallet has exactly one default wallet. -/
theorem default_wallet_exactly_one :
    (∀ (s : DB) (uid : Nat) (name cur : String),
      hasWallet s uid = false → CURRENCIES.contains cur = true →
      (add_wallet s uid name cur).wallets =
        s.wallets ++ [⟨s.next_wallet_id, uid, name, cur, 0, true⟩]) ∧
    (∀ ops : List WOp, validSeq DB0 ops = true →
      ∀ u, hasWallet (applySeq DB0 ops) u = true →
        countDefaults (applySeq DB0 ops) u = 1) := by
  constructor
  · intro s uid name cur hno hcur
    rw [add_wallet, if_neg (by simp; simpa using hcur)]
    have hf0 : (s.wallets.filter (fun w => w.user_id = uid)).length = 0 := by
      rw [List.length_eq_zero, List.filter_eq_nil_iff]
      intro w hw hwp
      have hhw := (hasWallet_iff s uid).mpr ⟨w, hw, by simpa using hwp⟩
      rw [hno] at hhw
      cases hhw
    simp [hf0]
  · intro ops hv u hu
    exact (WInv_seq ops DB0 WInv_DB0 hv).2.2 u hu

/-- Witness for claim C7: a first wallet is created default, and after
the concrete sequence `opsC7` (two wallets for user 7, two re-defaults,
one wallet for user 9) user 7 has exactly one default wallet. -/
theorem default_wallet_exactly_one_witness :
    (add_wallet DB0 9 ("n") cUSD).wallets =
      DB0.wallets ++ [⟨DB0.next_wallet_id, 9, ("n"), cUSD, 0, true⟩] ∧
    countDefaults (applySeq DB0 opsC7) 7 = 1 :=
  ⟨default_wallet_exactly_one.1 DB0 9 ("n") cUSD (by decide) (by decide),
   default_wallet_exactly_one.2 opsC7 (by decide) 7 (by decide)⟩

end Budget
